import Mathlib

/-!
Shallow embedding of the tool-use conversation loop of the
aws-samples/sample-agentic-ai-web example scripts, together with proofs of
the testable properties of its specification.

The embedded code comes from:
* `src/Python/11-mcp-client.py` — conversation driver with context
  compaction (`filter_empty_text_content`, `remove_media_except_last_turn`,
  `summarize_conversation`, `process_tool_request`, the tool-dispatch loop
  body of `run_client`);
* `src/11-mcp-server.py` — the browser effectors (`scroll`, `write_file`).

Messages are Python dicts in the source; a content item is a dict with
exactly one discriminating key (`text`, `image`, `json`, `toolUse`,
`toolResult`), which we embed as a tagged variant.  The inner content of a
`toolResult` in this code base only ever holds `json`, `image` or `text`
items, embedded as the separate type `ResultContent`.  JSON payloads built
by this code are flat objects of scalar fields, embedded as `JVal`.
External effectful calls (the Bedrock `converse` call, the MCP
`session.call_tool`, the file write) are passed in as explicit parameters;
an `Except`/`Option` error value stands for a raised exception.
-/

namespace AgenticWeb

/-- Scalar JSON value (string, integer, boolean). -/
inductive JLeaf where
  | s (v : String)
  | i (v : Int)
  | b (v : Bool)
deriving DecidableEq

/-- JSON payload as built by this code base: a scalar or a flat object of
scalar fields. -/
inductive JVal where
  | leaf (v : JLeaf)
  | obj (fields : List (String × JLeaf))
deriving DecidableEq

/-- Content of a `toolResult` item as built by `process_tool_request`:
a `{"json": ...}`, `{"image": ...}` or `{"text": ...}` dict. -/
inductive ResultContent where
  | jsonItem (v : JVal)
  | image (format : String) (data : String)
  | textItem (t : String)
deriving DecidableEq

/-- Content item of a conversation message, discriminated in the Python
source by which key the dict carries (`text` / `image` / `json` /
`toolUse` / `toolResult`).  Image bytes are abstracted as a string. -/
inductive ContentItem where
  | text (t : String)
  | image (format : String) (data : String)
  | jsonItem (v : JVal)
  | toolUse (toolUseId : String) (name : String) (input : JVal)
  | toolResult (toolUseId : String) (content : List ResultContent)
deriving DecidableEq

/-- Role of a conversation message (`msg['role']` in the source). -/
inductive Role where
  | user
  | assistant
deriving DecidableEq

/-- Conversation message: `{"role": ..., "content": [...]}`. -/
structure Message where
  role : Role
  content : List ContentItem
deriving DecidableEq

/-- Python `str.lower()` (character-wise lowering; the strings compared in
this code base are plain ASCII). -/
def pyLower (s : String) : String := ⟨s.data.map Char.toLower⟩

/-- Python `str.endswith(t)`. -/
def pyEndsWith (s t : String) : Bool := t.data.isSuffixOf s.data

/-- Python `str.strip()`: drop leading and trailing whitespace. -/
def pyStrip (s : String) : String :=
  ⟨((s.data.dropWhile Char.isWhitespace).reverse.dropWhile Char.isWhitespace).reverse⟩

/-- True for an item carrying the `toolUse` key (`'toolUse' in content_item`). -/
def ContentItem.isToolUse : ContentItem → Bool
  | .toolUse _ _ _ => true
  | _ => false

/-- True for an item carrying the `toolResult` key. -/
def ContentItem.isToolResult : ContentItem → Bool
  | .toolResult _ _ => true
  | _ => false

/-- The `toolUseId` carried by a `toolResult` item, if the item is one. -/
def ContentItem.resultId : ContentItem → Option String
  | .toolResult i _ => some i
  | _ => none

/-! ## `filter_empty_text_content` (11-mcp-client.py lines 49-62)

Keeps the content items that either do not carry a `text` key or whose
text is non-empty after `strip()`. -/

/-- Loop body of `filter_empty_text_content`: build `filtered_content` by
appending every kept item in order. -/
def filter_content_loop (content : List ContentItem) : List ContentItem :=
  content.foldl (fun acc content_item =>
    match content_item with
    | ContentItem.text t => if pyStrip t ≠ "" then acc ++ [content_item] else acc
    | _ => acc ++ [content_item]) []

/-- Embeds `filter_empty_text_content(message)`.  The Python guard for a
message lacking the `content` key does not arise: every embedded message
has a content list. -/
def filter_empty_text_content (message : Message) : Message :=
  ⟨message.role, filter_content_loop message.content⟩

/-! ## `remove_media_except_last_turn` (11-mcp-client.py lines 65-126) -/

/-- Index of the last message whose role is `user`
(the `last_user_index` scan; the `second_last_user_index` the source also
computes is never used afterwards). -/
def last_user_index (messages : List Message) : Option Nat :=
  match messages.reverse.findIdx? (fun m => m.role == Role.user) with
  | some j => some (messages.length - 1 - j)
  | none => none

/-- Inner loop over one message's content: keep `text` items, drop `image`
and `json` items while recording that media was removed, keep everything
else.  Returns `(new_content, removed_media)`. -/
def strip_media_content : List ContentItem → List ContentItem × Bool
  | [] => ([], false)
  | content_item :: rest =>
    let r := strip_media_content rest
    match content_item with
    | ContentItem.text _ => (content_item :: r.1, r.2)
    | ContentItem.image _ _ => (r.1, true)
    | ContentItem.jsonItem _ => (r.1, true)
    | _ => (content_item :: r.1, r.2)

/-- Processing of one non-skipped message: strip media and, if that
removed media and emptied the content, substitute the placeholder text. -/
def strip_media_message (m : Message) : Message :=
  if (strip_media_content m.content).2 ∧ (strip_media_content m.content).1 = [] then
    ⟨m.role, [ContentItem.text "An image or document was removed for brevity."]⟩
  else
    ⟨m.role, (strip_media_content m.content).1⟩

/-- Skip condition of the processing loop: the message is at or after the
last user message, or is the final message. -/
def skip_last_turn (messages : List Message) (i : Nat) : Bool :=
  (match last_user_index messages with
   | some j => decide (j ≤ i)
   | none => false) || decide (i = messages.length - 1)

/-- Embeds `remove_media_except_last_turn(messages)`.  The Python deep
copy is the identity here since the embedding is pure. -/
def remove_media_except_last_turn (messages : List Message) : List Message :=
  if messages.length < 2 then messages
  else
    messages.mapIdx (fun i m =>
      if skip_last_turn messages i then m else strip_media_message m)

/-! ## `summarize_conversation` (11-mcp-client.py lines 129-306)

The Bedrock call of the summarization model is passed in as
`converse : String → Option String`, mapping the summarization prompt to
the extracted summary text, with `none` standing for a raised exception
(the `except` branch of the source). -/

/-- Number of recent turns kept intact (`KEEP_LAST_TURNS = 2`). -/
def KEEP_LAST_TURNS : Nat := 2

/-- Backwards collection loop over the reversed message list: each
message is inserted, a turn is counted when the message is a user message
with a predecessor (`i > 0`) whose role is assistant, and collection
stops once `turn_count` reaches `k`.  The result is in reversed order. -/
def collect_last_aux (k : Nat) : List Message → Nat → List Message
  | [], _ => []
  | m :: rest, turn_count =>
    let counted : Bool := (m.role == Role.user) &&
      (match rest with
       | prev :: _ => prev.role == Role.assistant
       | [] => false)
    let tc := if counted then turn_count + 1 else turn_count
    if k ≤ tc then [m] else m :: collect_last_aux k rest tc

/-- The `last_messages` kept verbatim by `summarize_conversation`. -/
def collect_last (messages : List Message) : List Message :=
  (collect_last_aux KEEP_LAST_TURNS messages.reverse 0).reverse

/-- The `to_summarize` slice `processed_messages[1 : len - message_count]`. -/
def middle_span (messages : List Message) : List Message :=
  (messages.drop 1).take (messages.length - (collect_last messages).length - 1)

/-- The `tool_use_content` scan: when the last message of the middle span
is an assistant message, its `toolUse` items in order, else nothing. -/
def carried_tool_uses (messages : List Message) : List ContentItem :=
  match (middle_span messages).getLast? with
  | some last_message =>
    if last_message.role == Role.assistant then
      last_message.content.filter ContentItem.isToolUse
    else []
  | none => []

/-- Flattened rendering of one content item for the summarization prompt. -/
def content_item_text : ContentItem → String
  | ContentItem.text t => t ++ " "
  | ContentItem.jsonItem _ => "[JSON data] "
  | ContentItem.image _ _ => "[IMAGE] "
  | ContentItem.toolUse _ name _ => "[TOOL USE: " ++ name ++ "] "
  | ContentItem.toolResult _ _ => "[TOOL RESULT] "

/-- The `content_text` accumulated over one message's content. -/
def message_prompt_text (m : Message) : String :=
  m.content.foldl (fun acc c => acc ++ content_item_text c) ""

/-- Python `role.upper()` for the two roles in use. -/
def role_upper : Role → String
  | Role.user => "USER"
  | Role.assistant => "ASSISTANT"

/-- Fixed header of the summarization prompt. -/
def summarization_prompt_header : String :=
  "Please summarize the following conversation while preserving key information, decisions, and context.\nFocus on the steps we went through and what we\x27ve accomplished so far. Include any important findings or decisions made.\nProvide a concise but comprehensive summary that will help continue the conversation effectively:\n\n"

/-- The full summarization prompt built over the middle span. -/
def build_prompt (msgs : List Message) : String :=
  msgs.foldl (fun prompt msg =>
    let content_text := message_prompt_text msg
    if pyStrip content_text ≠ "" then
      prompt ++ role_upper msg.role ++ ": " ++ content_text ++ "\n\n"
    else prompt) summarization_prompt_header

/-- The `tool_use_count` scan of the validation step: `toolUse` items in
assistant messages. -/
def count_tool_use (msgs : List Message) : Nat :=
  msgs.foldl (fun acc m =>
    if m.role == Role.assistant then acc + m.content.countP ContentItem.isToolUse
    else acc) 0

/-- The `tool_result_count` scan of the validation step: `toolResult`
items in user messages. -/
def count_tool_result (msgs : List Message) : Nat :=
  msgs.foldl (fun acc m =>
    if m.role == Role.user then acc + m.content.countP ContentItem.isToolResult
    else acc) 0

/-- The synthesized `summary_message`: the summary text item followed by
the carried-forward `toolUse` items. -/
def summary_message (messages : List Message) (summary_text : String) : Message :=
  ⟨Role.assistant,
   ContentItem.text ("[CONVERSATION SUMMARY: " ++ summary_text ++ "]") ::
     carried_tool_uses messages⟩

/-- The reassembled `result`: first message, summary message, kept tail. -/
def assembled (messages : List Message) (summary_text : String) : List Message :=
  match messages with
  | [] => []
  | first_message :: _ =>
    first_message :: summary_message messages summary_text :: collect_last messages

/-- Embeds `summarize_conversation(messages, bedrock_client)`.  Control
flow of the source: too-few-messages guard; empty middle span guard
(returning the deep copy, equal in value to the input); the model call —
`none` is the exception branch, which returns the copy; on success the
reassembled result is kept only when the tool-use and tool-result counts
agree, otherwise the original messages are returned. -/
def summarize_conversation (messages : List Message)
    (converse : String → Option String) : List Message :=
  if messages.length ≤ KEEP_LAST_TURNS * 2 + 1 then messages
  else if middle_span messages = [] then messages
  else
    match converse (build_prompt (middle_span messages)) with
    | none => messages
    | some summary_text =>
      if count_tool_use (assembled messages summary_text) =
          count_tool_result (assembled messages summary_text) then
        assembled messages summary_text
      else messages

/-! ## Server effectors (11-mcp-server.py)

The Playwright side effects (`page.evaluate`, the file write) are outside
the embedding; the file write's outcome is passed in explicitly. -/

/-- Embeds the `scroll` tool (11-mcp-server.py lines 186-209): `down` and
`up` (case-insensitive) scroll and return the success dict, any other
direction returns the error dict. -/
def scroll (direction : String) (amount : Int) : JVal :=
  if pyLower direction = "down" then
    JVal.obj [("scrolled", JLeaf.b true), ("direction", JLeaf.s direction),
              ("amount", JLeaf.i amount)]
  else if pyLower direction = "up" then
    JVal.obj [("scrolled", JLeaf.b true), ("direction", JLeaf.s direction),
              ("amount", JLeaf.i amount)]
  else
    JVal.obj [("scrolled", JLeaf.b false),
              ("error", JLeaf.s ("Invalid direction: " ++ direction))]

/-- Python `content[:100]` character slice. -/
def pyTake (s : String) (n : Nat) : String := ⟨s.data.take n⟩

/-- Return value of `write_file`: an `EmbeddedResource` wrapping a
`TextResourceContents(uri, mimeType, text)` on success, the
`{"written": False, "error": e}` dict when the file write raised. -/
inductive WriteFileResult where
  | embeddedResource (uri : String) (mimeType : String) (text : String)
  | errorResult (written : Bool) (error : String)
deriving DecidableEq

/-- Embeds the `write_file` tool (11-mcp-server.py lines 238-278).
`fileWrite` is the outcome of the `open`/`write` call in the `try`
block. -/
def write_file (session_id filename content : String)
    (fileWrite : Except String Unit) : WriteFileResult :=
  match fileWrite with
  | Except.error e => WriteFileResult.errorResult false e
  | Except.ok _ =>
    let resource_uri := "artifact://" ++ session_id ++ "/" ++ filename
    let mime_type :=
      if pyEndsWith filename ".md" then "text/markdown"
      else if pyEndsWith filename ".html" then "text/html"
      else if pyEndsWith filename ".json" then "application/json"
      else "text/plain"
    WriteFileResult.embeddedResource resource_uri mime_type (pyTake content 100)

/-! ## Client tool dispatch (11-mcp-client.py lines 326-396 and 484-529) -/

/-- Content item of an MCP `CallToolResult` as discriminated by
`process_tool_request`: image (base64 data), text, or embedded resource
(uri plus optional inline text). -/
inductive MCPContent where
  | image (data : String)
  | textContent (t : String)
  | resource (uri : String) (text : Option String)
deriving DecidableEq

/-- Conversion loop of `process_tool_request`: build `bedrock_content`
from the MCP items and record every resource uri in the artifact list
(the appends to the global `artifact_uris`), in traversal order. -/
def convert_mcp_content (items : List MCPContent) : List ResultContent × List String :=
  items.foldl (fun acc content_item =>
    match content_item with
    | MCPContent.image data =>
      (acc.1 ++ [ResultContent.jsonItem (JVal.obj [("filename", JLeaf.s "screenshot.jpeg")]),
                 ResultContent.image "jpeg" data], acc.2)
    | MCPContent.textContent t =>
      (acc.1 ++ [ResultContent.jsonItem (JVal.obj [("text", JLeaf.s t)])], acc.2)
    | MCPContent.resource uri textOpt =>
      let withUri := (acc.1 ++ [ResultContent.jsonItem (JVal.obj [("resource", JLeaf.s uri)])],
                      acc.2 ++ [uri])
      match textOpt with
      | some t =>
        (withUri.1 ++ [ResultContent.jsonItem (JVal.obj [("resource", JLeaf.s t)])], withUri.2)
      | none => withUri) ([], [])

/-- Embeds `process_tool_request(session, tool_name, tool_id, tool_input)`.
`call_tool` is `session.call_tool`; an `Except.error` is a raised
exception, caught by the handler that builds the `{"error": message}`
result.  The artifact list is threaded explicitly in place of the global
`artifact_uris`. -/
def process_tool_request (call_tool : String → JVal → Except String (List MCPContent))
    (tool_name tool_id : String) (tool_input : JVal)
    (artifact_uris : List String) : ContentItem × List String :=
  match call_tool tool_name tool_input with
  | Except.ok result =>
    let conv := convert_mcp_content result
    (ContentItem.toolResult tool_id conv.1, artifact_uris ++ conv.2)
  | Except.error e =>
    (ContentItem.toolResult tool_id [ResultContent.jsonItem (JVal.obj [("error", JLeaf.s e)])],
     artifact_uris)

/-- Python `str()` of a scalar as used in an f-string. -/
def JLeaf.pyStr : JLeaf → String
  | JLeaf.s v => v
  | JLeaf.i v => toString v
  | JLeaf.b true => "True"
  | JLeaf.b false => "False"

/-- Python `str()` of a JSON payload (dict rendering kept approximate;
it only feeds the displayed ambient text, never a branch). -/
def JVal.pyStr : JVal → String
  | JVal.leaf v => v.pyStr
  | JVal.obj fields =>
    "\x7b" ++ String.intercalate ", " (fields.map (fun f => f.1 ++ ": " ++ f.2.pyStr)) ++ "\x7d"

/-- The `toolUse` requests of a content list, in order, as
`(toolUseId, name, input)` triples. -/
def tool_requests (content : List ContentItem) : List (String × String × JVal) :=
  content.filterMap (fun c =>
    match c with
    | ContentItem.toolUse tool_id name input => some (tool_id, name, input)
    | _ => none)

/-- Embeds the body of the `while stop_reason == 'tool_use'` loop of
`run_client` that builds `tool_result_message` (lines 484-529): dispatch
every `toolUse` of the assistant message in order, fetch the ambient page
info, append the `browser_content` text item, and wrap everything in a
new user message.  Returns `none` when `content[0]` of the page-info
result raises `IndexError` (empty content list).  The `json.loads` of a
string-typed tool input does not arise: inputs are already structured.

`dispatch_tool_uses` is the `for content in output_message.get('content', [])`
loop accumulating `tool_content` (and threading the artifact list);
`build_tool_result_message` is the rest of the loop body. -/
def dispatch_tool_uses (call_tool : String → JVal → Except String (List MCPContent))
    (content : List ContentItem) (acc : List ContentItem × List String) :
    List ContentItem × List String :=
  content.foldl (fun acc content =>
    match content with
    | ContentItem.toolUse tool_id tool_name tool_input =>
      let r := process_tool_request call_tool tool_name tool_id tool_input acc.2
      (acc.1 ++ [r.1], r.2)
    | _ => acc) acc

/-- The `["toolResult"]["content"]` list of a dispatch result (always a
`toolResult` by construction of `process_tool_request`). -/
def page_info_content : ContentItem → List ResultContent
  | ContentItem.toolResult _ c => c
  | _ => []

/-- The `page_info_text` extraction from `content[0]` of the page-info
result: a `json` dict with a `text` key yields that text, any other
`json` payload is rendered with `str()`, a non-`json` item yields the
fallback text. -/
def page_info_text_of : ResultContent → String
  | ResultContent.jsonItem j =>
    (match j with
     | JVal.obj fields =>
       (match fields.lookup "text" with
        | some v => v.pyStr
        | none => JVal.pyStr (JVal.obj fields))
     | _ => j.pyStr)
  | _ => "Page info not available"

def build_tool_result_message (call_tool : String → JVal → Except String (List MCPContent))
    (output_message : Message) (artifact_uris : List String) :
    Option (Message × List String) :=
  let step := dispatch_tool_uses call_tool output_message.content ([], artifact_uris)
  let page_info_result := process_tool_request call_tool "get_page_info" "page_info"
    (JVal.obj []) step.2
  match page_info_content page_info_result.1 with
  | [] => none
  | first :: _ =>
    some (⟨Role.user,
           step.1 ++ [ContentItem.text ("Current page: " ++ page_info_text_of first)]⟩,
          page_info_result.2)

/-! ## Concrete transcripts used as witnesses and counterexamples -/

/-- Plain-text user message. -/
def mU (t : String) : Message := ⟨Role.user, [ContentItem.text t]⟩

/-- Plain-text assistant message. -/
def mA (t : String) : Message := ⟨Role.assistant, [ContentItem.text t]⟩

/-- Seven-message alternating transcript ending in a user turn, the shape
`summarize_conversation` is called on by `run_client`. -/
def exMsgs : List Message :=
  [mU "m0", mA "m1", mU "m2", mA "STEP3", mU "m4", mA "m5", mU "m6"]

/-- Transcript whose middle span ends in an assistant message holding a
pending `toolUse`, answered by the `toolResult` in the kept tail. -/
def exToolMsgs : List Message :=
  [mU "m0", mA "m1", mU "m2",
   ⟨Role.assistant, [ContentItem.text "t3",
     ContentItem.toolUse "id1" "navigate" (JVal.obj [("url", JLeaf.s "x")])]⟩,
   ⟨Role.user, [ContentItem.toolResult "id1"
       [ResultContent.jsonItem (JVal.obj [("text", JLeaf.s "ok")])],
     ContentItem.text "amb"]⟩,
   mA "m5", mU "m6"]

/-- The assistant message of `exToolMsgs` that closes its middle span. -/
def exMidLast : Message :=
  ⟨Role.assistant, [ContentItem.text "t3",
    ContentItem.toolUse "id1" "navigate" (JVal.obj [("url", JLeaf.s "x")])]⟩

/-- Transcript with media in turns before the last user turn. -/
def exMedia : List Message :=
  [⟨Role.assistant, [ContentItem.image "png" "D"]⟩,
   ⟨Role.user, [ContentItem.text "x"]⟩,
   ⟨Role.assistant, [ContentItem.image "png" "D"]⟩,
   ⟨Role.user, [ContentItem.text "y"]⟩]

/-- Assistant message carrying one pending tool request. -/
def exAssistant : Message :=
  ⟨Role.assistant, [ContentItem.text "thinking",
    ContentItem.toolUse "id1" "navigate" (JVal.obj [("url", JLeaf.s "x")])]⟩

/-- Tool-call stub: page info comes back as a text item `"T"`, every
other tool as a text item `"r1"`. -/
def exCallTool : String → JVal → Except String (List MCPContent) := fun name _ =>
  if name == "get_page_info" then Except.ok [MCPContent.textContent "T"]
  else Except.ok [MCPContent.textContent "r1"]

/-- The user turn `build_tool_result_message` builds from `exAssistant`
under `exCallTool`. -/
def exUserTurn : Message :=
  ⟨Role.user, [ContentItem.toolResult "id1"
      [ResultContent.jsonItem (JVal.obj [("text", JLeaf.s "r1")])],
    ContentItem.text "Current page: T"]⟩

/-! ## Helper lemmas -/

/-- Content item kept by `filter_empty_text_content`: not a text item, or
a text item whose stripped text is non-empty. -/
def keep_content_item : ContentItem → Bool
  | ContentItem.text t => pyStrip t != ""
  | _ => true

theorem filter_content_loop_append (l : List ContentItem) : ∀ acc : List ContentItem,
    l.foldl (fun acc content_item =>
      match content_item with
      | ContentItem.text t => if pyStrip t ≠ "" then acc ++ [content_item] else acc
      | _ => acc ++ [content_item]) acc = acc ++ l.filter keep_content_item := by
  induction l with
  | nil => intro acc; simp
  | cons c rest ih =>
    intro acc
    rw [List.foldl_cons, ih]
    cases c with
    | text t =>
      by_cases h : pyStrip t ≠ ""
      · simp [h, keep_content_item, List.filter_cons, bne_iff_ne]
      · simp only [ne_eq, not_not] at h
        simp [h, keep_content_item, List.filter_cons]
    | image fmt d => simp [keep_content_item, List.filter_cons]
    | jsonItem v => simp [keep_content_item, List.filter_cons]
    | toolUse i n inp => simp [keep_content_item, List.filter_cons]
    | toolResult i c => simp [keep_content_item, List.filter_cons]

theorem filter_content_loop_eq (l : List ContentItem) :
    filter_content_loop l = l.filter keep_content_item := by
  unfold filter_content_loop
  simpa using filter_content_loop_append l []

theorem strip_media_content_flag (l : List ContentItem) (hne : l ≠ [])
    (h1 : (strip_media_content l).1 = []) : (strip_media_content l).2 = true := by
  induction l with
  | nil => exact absurd rfl hne
  | cons c rest ih =>
    cases c with
    | text t => simp [strip_media_content] at h1
    | image fmt d => simp [strip_media_content]
    | jsonItem v => simp [strip_media_content]
    | toolUse i n inp => simp [strip_media_content] at h1
    | toolResult i cs => simp [strip_media_content] at h1

theorem strip_media_message_nonempty (m : Message) (h : m.content ≠ []) :
    (strip_media_message m).content ≠ [] := by
  unfold strip_media_message
  split
  · simp
  · next hcond =>
    intro hfalse
    simp only at hfalse
    exact hcond ⟨strip_media_content_flag m.content h hfalse, hfalse⟩

theorem collect_last_aux_pre (k : Nat) :
    ∀ (l : List Message) (tc : Nat), collect_last_aux k l tc <+: l := by
  intro l
  induction l with
  | nil => intro tc; simp [collect_last_aux]
  | cons m rest ih =>
    intro tc
    simp only [collect_last_aux]
    split <;> split
    all_goals first
      | exact List.cons_prefix_cons.mpr ⟨rfl, List.nil_prefix⟩
      | exact List.cons_prefix_cons.mpr ⟨rfl, ih _⟩

theorem collect_last_sfx (messages : List Message) :
    collect_last messages <:+ messages := by
  have h := (collect_last_aux_pre KEEP_LAST_TURNS messages.reverse 0).reverse
  rw [List.reverse_reverse] at h
  exact h

theorem process_tool_request_id
    (call_tool : String → JVal → Except String (List MCPContent))
    (tool_name tool_id : String) (tool_input : JVal) (artifact_uris : List String) :
    (process_tool_request call_tool tool_name tool_id tool_input artifact_uris).1.resultId =
      some tool_id := by
  cases h : call_tool tool_name tool_input <;>
    simp [process_tool_request, h, ContentItem.resultId]

theorem process_tool_request_fst_arts
    (call_tool : String → JVal → Except String (List MCPContent))
    (tool_name tool_id : String) (tool_input : JVal) (artifact_uris : List String) :
    (process_tool_request call_tool tool_name tool_id tool_input artifact_uris).1 =
      (process_tool_request call_tool tool_name tool_id tool_input []).1 := by
  cases h : call_tool tool_name tool_input <;> simp [process_tool_request, h]

theorem dispatch_tool_uses_fst
    (call_tool : String → JVal → Except String (List MCPContent))
    (content : List ContentItem) :
    ∀ (accL : List ContentItem) (accA : List String),
    (dispatch_tool_uses call_tool content (accL, accA)).1 =
      accL ++ (tool_requests content).map
        (fun r => (process_tool_request call_tool r.2.1 r.1 r.2.2 []).1) := by
  induction content with
  | nil => intro accL accA; simp [dispatch_tool_uses, tool_requests]
  | cons c rest ih =>
    intro accL accA
    cases c with
    | toolUse tool_id tool_name tool_input =>
      show (dispatch_tool_uses call_tool rest
        (accL ++ [(process_tool_request call_tool tool_name tool_id tool_input accA).1],
         (process_tool_request call_tool tool_name tool_id tool_input accA).2)).1 = _
      rw [ih, process_tool_request_fst_arts]
      simp [tool_requests, List.filterMap_cons]
    | text t =>
      show (dispatch_tool_uses call_tool rest (accL, accA)).1 = _
      rw [ih]; simp [tool_requests, List.filterMap_cons]
    | image fmt d =>
      show (dispatch_tool_uses call_tool rest (accL, accA)).1 = _
      rw [ih]; simp [tool_requests, List.filterMap_cons]
    | jsonItem v =>
      show (dispatch_tool_uses call_tool rest (accL, accA)).1 = _
      rw [ih]; simp [tool_requests, List.filterMap_cons]
    | toolResult i cs =>
      show (dispatch_tool_uses call_tool rest (accL, accA)).1 = _
      rw [ih]; simp [tool_requests, List.filterMap_cons]

/-! ## Claim theorems -/

/-- C8: for every direction string that is not `up` or `down`
(case-insensitively) and every amount, `scroll` returns
`{scrolled: false, error: ...}` without raising; for `up` or `down` it
returns `{scrolled: true, direction, amount}`.  (The embedding is a total
function, so no exception can escape.) -/
theorem C8_scroll_direction (direction : String) (amount : Int) :
    (pyLower direction ≠ "up" → pyLower direction ≠ "down" →
      scroll direction amount =
        JVal.obj [("scrolled", JLeaf.b false),
                  ("error", JLeaf.s ("Invalid direction: " ++ direction))]) ∧
    (pyLower direction = "up" ∨ pyLower direction = "down" →
      scroll direction amount =
        JVal.obj [("scrolled", JLeaf.b true), ("direction", JLeaf.s direction),
                  ("amount", JLeaf.i amount)]) := by
  unfold scroll
  constructor
  · intro hu hd
    rw [if_neg hd, if_neg hu]
  · intro h
    rcases h with h | h
    · by_cases hd : pyLower direction = "down"
      · rw [if_pos hd]
      · rw [if_neg hd, if_pos h]
    · rw [if_pos h]

/-- Witness for C8 at direction `"sideways"` (invalid) and `"Down"`
(valid up to case). -/
theorem C8_scroll_direction_witness :
    scroll "sideways" 500 =
      JVal.obj [("scrolled", JLeaf.b false),
                ("error", JLeaf.s "Invalid direction: sideways")] ∧
    scroll "Down" 500 =
      JVal.obj [("scrolled", JLeaf.b true), ("direction", JLeaf.s "Down"),
                ("amount", JLeaf.i 500)] := by
  constructor
  · have h := (C8_scroll_direction "sideways" 500).1 (by decide) (by decide)
    rw [h]; decide
  · exact (C8_scroll_direction "Down" 500).2 (Or.inr (by decide))

/-- C9 (counterexample): the filter also removes a whitespace-only text
item `Text(" ")`, which is not an empty `Text("")` item — so "removes
exactly the content items carrying an empty `Text("")` value" fails as
stated. -/
theorem C9_counterexample :
    (filter_empty_text_content ⟨Role.assistant, [ContentItem.text " "]⟩).content = [] ∧
    ContentItem.text " " ≠ ContentItem.text "" := by decide

/-- C9 (amended): `filter_empty_text_content` keeps the role and removes
exactly the content items carrying a text value that is empty after
stripping whitespace (Python truthiness of `text.strip()`), keeping every
other content item in its original order. -/
theorem C9_filter_empty_text (message : Message) :
    (filter_empty_text_content message).role = message.role ∧
    (filter_empty_text_content message).content =
      message.content.filter keep_content_item :=
  ⟨rfl, filter_content_loop_eq message.content⟩

/-- C4: `process_tool_request` is total (nothing escapes the dispatch
boundary), always returns a `toolResult` carrying the request's id, and
when the underlying call raises — including for an unknown tool name —
the result content is the single structured item `{error: message}`. -/
theorem C4_process_tool_request_safe
    (call_tool : String → JVal → Except String (List MCPContent))
    (tool_name tool_id : String) (tool_input : JVal) (artifact_uris : List String) :
    (process_tool_request call_tool tool_name tool_id tool_input artifact_uris).1.resultId =
      some tool_id ∧
    (∀ e, call_tool tool_name tool_input = Except.error e →
      (process_tool_request call_tool tool_name tool_id tool_input artifact_uris).1 =
        ContentItem.toolResult tool_id
          [ResultContent.jsonItem (JVal.obj [("error", JLeaf.s e)])]) := by
  refine ⟨process_tool_request_id call_tool tool_name tool_id tool_input artifact_uris, ?_⟩
  intro e he
  simp [process_tool_request, he]

/-- Witness for C4 at an unknown tool name whose call raises. -/
theorem C4_process_tool_request_safe_witness :
    (process_tool_request (fun _ _ => Except.error "Unknown tool: unknown_tool")
        "unknown_tool" "t1" (JVal.obj []) []).1 =
      ContentItem.toolResult "t1"
        [ResultContent.jsonItem (JVal.obj [("error", JLeaf.s "Unknown tool: unknown_tool")])] ∧
    (process_tool_request (fun _ _ => Except.error "Unknown tool: unknown_tool")
        "unknown_tool" "t1" (JVal.obj []) []).1.resultId = some "t1" := by
  have h := C4_process_tool_request_safe
    (fun _ _ => Except.error "Unknown tool: unknown_tool") "unknown_tool" "t1" (JVal.obj []) []
  exact ⟨h.2 "Unknown tool: unknown_tool" rfl, h.1⟩

/-- C7: on a successful write, `write_file` returns an embedded resource
whose uri is `artifact://{session_id}/{filename}` and whose mime type is
inferred from the extension (`.md` markdown, `.html` html, `.json` json,
anything else plain), and when the client processes that resource result
it appends exactly that uri to the artifact list. -/
theorem C7_write_file_artifact (session_id filename content : String) :
    (∃ mime_type, write_file session_id filename content (Except.ok ()) =
      WriteFileResult.embeddedResource ("artifact://" ++ session_id ++ "/" ++ filename)
        mime_type (pyTake content 100)) ∧
    (pyEndsWith filename ".md" = true →
      write_file session_id filename content (Except.ok ()) =
        WriteFileResult.embeddedResource ("artifact://" ++ session_id ++ "/" ++ filename)
          "text/markdown" (pyTake content 100)) ∧
    (pyEndsWith filename ".md" = false → pyEndsWith filename ".html" = true →
      write_file session_id filename content (Except.ok ()) =
        WriteFileResult.embeddedResource ("artifact://" ++ session_id ++ "/" ++ filename)
          "text/html" (pyTake content 100)) ∧
    (pyEndsWith filename ".md" = false → pyEndsWith filename ".html" = false →
      pyEndsWith filename ".json" = true →
      write_file session_id filename content (Except.ok ()) =
        WriteFileResult.embeddedResource ("artifact://" ++ session_id ++ "/" ++ filename)
          "application/json" (pyTake content 100)) ∧
    (pyEndsWith filename ".md" = false → pyEndsWith filename ".html" = false →
      pyEndsWith filename ".json" = false →
      write_file session_id filename content (Except.ok ()) =
        WriteFileResult.embeddedResource ("artifact://" ++ session_id ++ "/" ++ filename)
          "text/plain" (pyTake content 100)) ∧
    (∀ (tool_id : String) (tool_input : JVal) (artifact_uris : List String),
      (process_tool_request
          (fun _ _ => Except.ok [MCPContent.resource
            ("artifact://" ++ session_id ++ "/" ++ filename) (some (pyTake content 100))])
          "write_file" tool_id tool_input artifact_uris).2 =
        artifact_uris ++ ["artifact://" ++ session_id ++ "/" ++ filename]) := by
  refine ⟨⟨_, rfl⟩, ?_, ?_, ?_, ?_, ?_⟩
  · intro h1; simp [write_file, h1]
  · intro h1 h2; simp [write_file, h1, h2]
  · intro h1 h2 h3; simp [write_file, h1, h2, h3]
  · intro h1 h2 h3; simp [write_file, h1, h2, h3]
  · intro tool_id tool_input artifact_uris; rfl

/-- Witness for C7 at the spec scenario `write_file("r.md", "# Title")`. -/
theorem C7_write_file_artifact_witness :
    write_file "s" "r.md" "# Title" (Except.ok ()) =
      WriteFileResult.embeddedResource "artifact://s/r.md" "text/markdown" "# Title" ∧
    (process_tool_request
        (fun _ _ => Except.ok [MCPContent.resource "artifact://s/r.md" (some "# Title")])
        "write_file" "t1" (JVal.obj []) []).2 = ["artifact://s/r.md"] := by
  have h := C7_write_file_artifact "s" "r.md" "# Title"
  exact ⟨h.2.1 (by decide), h.2.2.2.2.2 "t1" (JVal.obj []) []⟩

/-- C2 (counterexample): on a transcript whose turns already have empty
content, the media-stripping stage passes the empty turns through, so
"never produces an empty-content turn" fails for arbitrary input. -/
theorem C2_counterexample :
    (remove_media_except_last_turn [⟨Role.user, []⟩, ⟨Role.assistant, []⟩]).any
      (fun m => m.content.isEmpty) = true := by decide

/-- C2 (amended): on every message list whose turns all have non-empty
content, no turn in the output of `remove_media_except_last_turn` has
empty content — whenever stripping media empties a processed turn, the
placeholder text item is substituted. -/
theorem C2_strip_media_no_empty_turn (messages : List Message)
    (h : ∀ m ∈ messages, m.content ≠ []) :
    ∀ m ∈ remove_media_except_last_turn messages, m.content ≠ [] := by
  intro m hm
  unfold remove_media_except_last_turn at hm
  split at hm
  · exact h m hm
  · obtain ⟨i, hi, he⟩ := List.exists_of_mem_mapIdx hm
    have hxmem : messages[i] ∈ messages := List.getElem_mem hi
    rw [← he]
    try dsimp only
    split
    · exact h _ hxmem
    · exact strip_media_message_nonempty _ (h _ hxmem)

/-- Witness for C2 on a transcript with media in early turns. -/
theorem C2_strip_media_no_empty_turn_witness :
    (∀ m ∈ exMedia, m.content ≠ []) ∧
    (∀ m ∈ remove_media_except_last_turn exMedia, m.content ≠ []) :=
  ⟨by decide, C2_strip_media_no_empty_turn exMedia (by decide)⟩

/-- C1: on every message list satisfying the tool-pairing invariant,
`summarize_conversation` returns either a list that still satisfies the
invariant or the input itself; in particular, when the summarization
model call raises, the input is returned unchanged (the mismatch branch
is covered by the disjunction: the result is kept only when the counts
agree). -/
theorem C1_summarize_pairing (messages : List Message)
    (converse : String → Option String)
    (h : count_tool_use messages = count_tool_result messages) :
    (count_tool_use (summarize_conversation messages converse) =
        count_tool_result (summarize_conversation messages converse) ∨
      summarize_conversation messages converse = messages) ∧
    (converse (build_prompt (middle_span messages)) = none →
      summarize_conversation messages converse = messages) := by
  constructor
  · unfold summarize_conversation
    split
    · exact Or.inr rfl
    · split
      · exact Or.inr rfl
      · split
        · exact Or.inr rfl
        · split
          · next hc => exact Or.inl hc
          · exact Or.inr rfl
  · intro hn
    unfold summarize_conversation
    split
    · rfl
    · split
      · rfl
      · rw [hn]

/-- Witness for C1 on a balanced transcript (no tool items at all). -/
theorem C1_summarize_pairing_witness :
    count_tool_use exMsgs = count_tool_result exMsgs ∧
    (count_tool_use (summarize_conversation exMsgs (fun _ => some "S")) =
        count_tool_result (summarize_conversation exMsgs (fun _ => some "S")) ∨
      summarize_conversation exMsgs (fun _ => some "S") = exMsgs) :=
  ⟨by decide, (C1_summarize_pairing exMsgs (fun _ => some "S") (by decide)).1⟩

/-- C5 (counterexample): on the seven-message transcript `exMsgs`
(ending, as in `run_client`, with a user turn) the successful
summarization result does not keep the last two complete user/assistant
turn-pairs verbatim: message index 3 (`mA "STEP3"`) belongs to the last
two complete adjacent pairs under either pairing convention, yet is
absent from the result, and the result is not the unchanged input
either. -/
theorem C5_counterexample :
    mA "STEP3" ∈ exMsgs ∧
    mA "STEP3" ∉ summarize_conversation exMsgs (fun _ => some "S") ∧
    summarize_conversation exMsgs (fun _ => some "S") ≠ exMsgs := by decide

/-- C5 (amended): on a successful summarization of a message list with a
non-empty middle span, the result is the first message, one synthesized
assistant summary turn, then the messages gathered by `collect_last` —
walking back from the end until `KEEP_LAST_TURNS` user turns each
directly preceded by an assistant turn have been included — which form a
verbatim suffix of the input; for a transcript ending in a user turn this
is the last `KEEP_LAST_TURNS - 1` complete pairs plus the trailing user
turn, not `KEEP_LAST_TURNS` complete pairs.  When there are too few
messages or the middle span is empty, the input is returned unchanged. -/
theorem C5_summarize_shape (messages : List Message)
    (converse : String → Option String) (summary_text : String) :
    (¬ messages.length ≤ KEEP_LAST_TURNS * 2 + 1 →
      middle_span messages ≠ [] →
      converse (build_prompt (middle_span messages)) = some summary_text →
      count_tool_use (assembled messages summary_text) =
        count_tool_result (assembled messages summary_text) →
      summarize_conversation messages converse =
        messages.take 1 ++ summary_message messages summary_text :: collect_last messages ∧
      collect_last messages <:+ messages) ∧
    (messages.length ≤ KEEP_LAST_TURNS * 2 + 1 →
      summarize_conversation messages converse = messages) ∧
    (middle_span messages = [] → summarize_conversation messages converse = messages) := by
  refine ⟨?_, ?_, ?_⟩
  · intro h1 h2 h3 h4
    refine ⟨?_, collect_last_sfx messages⟩
    unfold summarize_conversation
    rw [if_neg h1, if_neg h2, h3]
    try dsimp only
    rw [if_pos h4]
    cases messages with
    | nil => simp at h1
    | cons a l => rfl
  · intro h1
    unfold summarize_conversation
    rw [if_pos h1]
  · intro h2
    unfold summarize_conversation
    by_cases h1 : messages.length ≤ KEEP_LAST_TURNS * 2 + 1
    · rw [if_pos h1]
    · rw [if_neg h1, if_pos h2]

/-- Witness for C5 on the seven-message transcript. -/
theorem C5_summarize_shape_witness :
    summarize_conversation exMsgs (fun _ => some "S") =
      exMsgs.take 1 ++ summary_message exMsgs "S" :: collect_last exMsgs ∧
    collect_last exMsgs <:+ exMsgs :=
  (C5_summarize_shape exMsgs (fun _ => some "S") "S").1
    (by decide) (by decide) rfl (by decide)

/-- C6: when the last turn of the summarized span is an assistant turn,
its `toolUse` items are carried forward verbatim into the synthesized
summary turn, after the summary text item. -/
theorem C6_carried_tool_uses (messages : List Message)
    (converse : String → Option String) (summary_text : String) (last_mid : Message)
    (h1 : ¬ messages.length ≤ KEEP_LAST_TURNS * 2 + 1)
    (h2 : (middle_span messages).getLast? = some last_mid)
    (h3 : last_mid.role = Role.assistant)
    (h4 : converse (build_prompt (middle_span messages)) = some summary_text)
    (h5 : count_tool_use (assembled messages summary_text) =
      count_tool_result (assembled messages summary_text)) :
    (summarize_conversation messages converse).get? 1 =
      some ⟨Role.assistant,
        ContentItem.text ("[CONVERSATION SUMMARY: " ++ summary_text ++ "]") ::
          last_mid.content.filter ContentItem.isToolUse⟩ := by
  have h2ne : middle_span messages ≠ [] := by
    intro hnil
    rw [hnil] at h2
    simp at h2
  unfold summarize_conversation
  rw [if_neg h1, if_neg h2ne, h4]
  try dsimp only
  rw [if_pos h5]
  cases messages with
  | nil => simp at h1
  | cons a l =>
    show (summary_message (a :: l) summary_text :: collect_last (a :: l)).get? 0 = _
    simp [summary_message, carried_tool_uses, h2, h3]

/-- Witness for C6 on a transcript whose middle span ends in an
assistant turn with a pending tool request. -/
theorem C6_carried_tool_uses_witness :
    (summarize_conversation exToolMsgs (fun _ => some "S")).get? 1 =
      some ⟨Role.assistant,
        [ContentItem.text "[CONVERSATION SUMMARY: S]",
         ContentItem.toolUse "id1" "navigate" (JVal.obj [("url", JLeaf.s "x")])]⟩ := by
  have h := C6_carried_tool_uses exToolMsgs (fun _ => some "S") "S" exMidLast
    (by decide) (by decide) (by decide) rfl (by decide)
  rw [h]
  decide

/-- C3: whenever the loop body builds the next user turn (no `IndexError`
on the page-info content), that turn contains exactly one `toolResult`
per `toolUse` request of the assistant turn, in request order, each
carrying the matching request id, followed by exactly one trailing
synthetic text item with the ambient page info, which is not a
`toolResult` and carries no id. -/
theorem C3_tool_result_turn
    (call_tool : String → JVal → Except String (List MCPContent))
    (output_message : Message) (artifact_uris : List String)
    (m : Message) (arts : List String)
    (h : build_tool_result_message call_tool output_message artifact_uris = some (m, arts)) :
    m.role = Role.user ∧
    (∃ ambient : String,
      m.content = (tool_requests output_message.content).map
          (fun r => (process_tool_request call_tool r.2.1 r.1 r.2.2 []).1)
        ++ [ContentItem.text ("Current page: " ++ ambient)]) ∧
    m.content.dropLast.map ContentItem.resultId =
      (tool_requests output_message.content).map (fun r => some r.1) := by
  unfold build_tool_result_message at h
  dsimp only at h
  split at h
  · exact absurd h (by simp)
  · next first rest heq =>
    simp only [Option.some.injEq, Prod.mk.injEq] at h
    obtain ⟨h1, h2⟩ := h
    subst h1
    refine ⟨rfl, ⟨page_info_text_of first, ?_⟩, ?_⟩
    · simp [dispatch_tool_uses_fst]
    · simp [dispatch_tool_uses_fst, List.dropLast_concat, List.map_map,
        Function.comp, process_tool_request_id]

/-- Witness for C3 on an assistant turn with one pending `navigate`
request. -/
theorem C3_tool_result_turn_witness :
    exUserTurn.role = Role.user ∧
    (∃ ambient : String,
      exUserTurn.content = (tool_requests exAssistant.content).map
          (fun r => (process_tool_request exCallTool r.2.1 r.1 r.2.2 []).1)
        ++ [ContentItem.text ("Current page: " ++ ambient)]) ∧
    exUserTurn.content.dropLast.map ContentItem.resultId =
      (tool_requests exAssistant.content).map (fun r => some r.1) :=
  C3_tool_result_turn exCallTool exAssistant [] exUserTurn [] (by decide)

end AgenticWeb
